import Mathlib

/-!
Shallow embedding of the latency-aggregation core of `src/main.py`
(eShopCo Latency API).

Numeric values (`latency_ms`, `uptime_pct`, `threshold_ms`) are modelled as
exact rationals.  A Python `dict` record may lack the `latency_ms` /
`uptime_pct` / `timestamp` keys, so those fields are `Option`-valued; the
Python expression `r["latency_ms"]` (which raises `KeyError` when the key is
absent) is modelled by `getAll`, which fails (returns `none`) as soon as one
record lacks the field.  `check_latency` therefore returns
`Option (List (String × RegionSummary))`: `none` models the call raising,
`some m` models a normal return of the dict `{"regions": m}` (an association
list with distinct keys, in Python dict insertion order, models the dict).
-/

/-- A telemetry record, as consumed by `check_latency` in `src/main.py`.
`region` and `service` are always present in the source's data; the numeric
fields and `timestamp` may be absent from a record (Python dicts are
duck-typed), hence `Option`. -/
structure TelemetryRecord where
  region : String
  service : String
  latency_ms : Option ℚ
  uptime_pct : Option ℚ
  timestamp : Option ℤ
deriving DecidableEq

/-- The request body model (`class Query(BaseModel)` in `src/main.py`). -/
structure Query where
  regions : List String
  threshold_ms : ℚ
deriving DecidableEq

/-- One value of the per-region summary dict built by `check_latency`.
The JSON output schema allows `null` for the three statistics, hence
`Option`. -/
structure RegionSummary where
  avg_latency : Option ℚ
  p95_latency : Option ℚ
  avg_uptime : Option ℚ
  breaches : ℕ
  samples : ℕ
deriving DecidableEq

/-- The module-level `telemetry` constant of `src/main.py`, lines 34-41. -/
def telemetry : List TelemetryRecord :=
  [ ⟨"apac", "support", some (12973/100), some (98345/1000), none⟩,
    ⟨"apac", "payments", some (14785/100), some (98423/1000), none⟩,
    ⟨"emea", "support", some (19212/100), some (97231/1000), none⟩,
    ⟨"emea", "payments", some (17754/100), some (97893/1000), none⟩,
    ⟨"americas", "support", some (15511/100), some (98911/1000), none⟩,
    ⟨"americas", "payments", some (16555/100), some (99022/1000), none⟩ ]

/-- `percentile(values, p)` of `src/main.py`, lines 46-51:
`if not values: return None`, then sort ascending,
`k = math.ceil(p * len(values)) - 1`, and return
`values[max(0, min(k, len(values) - 1))]`. -/
def percentile (values : List ℚ) (p : ℚ) : Option ℚ :=
  if values.isEmpty then none
  else
    let sorted := List.insertionSort (fun a b => a ≤ b) values
    let k : ℤ := ⌈p * (values.length : ℚ)⌉ - 1
    some (sorted.getD (max 0 (min k ((values.length : ℤ) - 1))).toNat 0)

/-- Python's `round(x, 3)` rounds ties to even (banker's rounding).
`roundHalfEven x` is the integer nearest to `x`, ties going to the even
integer. -/
def roundHalfEven (x : ℚ) : ℤ :=
  if x - ⌊x⌋ < 1/2 then ⌊x⌋
  else if 1/2 < x - ⌊x⌋ then ⌊x⌋ + 1
  else if ⌊x⌋ % 2 = 0 then ⌊x⌋ else ⌊x⌋ + 1

/-- Python's `round(x, 3)`: round to 3 decimal places, ties to even. -/
def round3 (x : ℚ) : ℚ := (roundHalfEven (x * 1000) : ℚ) / 1000

/-- The list comprehension `[r[field] for r in region_data]` of lines 65-66:
extract a field from every record; a record lacking the field makes the
whole extraction raise `KeyError`, modelled by `none`. -/
def getAll (f : TelemetryRecord → Option ℚ) : List TelemetryRecord → Option (List ℚ)
  | [] => some []
  | r :: rs =>
    match f r, getAll f rs with
    | some x, some xs => some (x :: xs)
    | _, _ => none

/-- Line 61: `region_data = [r for r in telemetry if r["region"] == region]`.
Note the match is plain string equality (case-sensitive). -/
def regionData (tel : List TelemetryRecord) (region : String) : List TelemetryRecord :=
  tel.filter (fun r => r.region == region)

/-- The body of one loop iteration of `check_latency` (lines 65-75) for a
region, after the `if not region_data: continue` guard: extract latencies and
uptimes (raising on a missing field), count breaches, and build the summary
dict with the three statistics rounded to 3 decimals. -/
def summaryFor (tel : List TelemetryRecord) (threshold : ℚ) (region : String) :
    Option RegionSummary :=
  let region_data := regionData tel region
  match getAll TelemetryRecord.latency_ms region_data,
        getAll TelemetryRecord.uptime_pct region_data with
  | some latencies, some uptimes =>
    match percentile latencies (19/20) with
    | some p95 =>
      some { avg_latency := some (round3 (latencies.sum / (latencies.length : ℚ))),
             p95_latency := some (round3 p95),
             avg_uptime := some (round3 (uptimes.sum / (uptimes.length : ℚ))),
             breaches := (latencies.filter (fun l => threshold < l)).length,
             samples := region_data.length }
    | none => none
  | _, _ => none

/-- Python dict assignment `d[k] = v`: overwrite in place when the key
exists, else append at the end (dicts preserve insertion order). -/
def dictInsert (m : List (String × RegionSummary)) (k : String) (v : RegionSummary) :
    List (String × RegionSummary) :=
  if m.any (fun q => q.1 == k) then
    m.map (fun q => if q.1 == k then (k, v) else q)
  else
    m ++ [(k, v)]

/-- The `for region in query.regions` loop of `check_latency` (lines 60-75),
threading the `regions_summary` dict as an accumulator.  A region with no
matching records is skipped (`continue`); a missing numeric field on a
matched record makes the whole call raise (`none`). -/
def check_loop (tel : List TelemetryRecord) (threshold : ℚ) :
    List String → List (String × RegionSummary) → Option (List (String × RegionSummary))
  | [], acc => some acc
  | region :: rest, acc =>
    if (regionData tel region).isEmpty then check_loop tel threshold rest acc
    else
      match summaryFor tel threshold region with
      | some s => check_loop tel threshold rest (dictInsert acc region s)
      | none => none

/-- `check_latency` of `src/main.py`, lines 56-77, with the module-level
`telemetry` passed explicitly.  Returns the contents of the
`{"regions": regions_summary}` response, or `none` when the call raises. -/
def check_latency (tel : List TelemetryRecord) (query : Query) :
    Option (List (String × RegionSummary)) :=
  check_loop tel query.threshold_ms query.regions []

/-- Lower-casing of a string, used to state the spec's claimed
case-insensitive matching (`.lower()` in the spec's words). -/
def strLower (s : String) : String := ⟨s.data.map Char.toLower⟩

/-- Agreement of two telemetry records on the fields the aggregation reads:
`region`, `latency_ms` and `uptime_pct` (everything except `service` and
`timestamp`).  Used to state C9. -/
def publicEq (a b : TelemetryRecord) : Prop :=
  a.region = b.region ∧ a.latency_ms = b.latency_ms ∧ a.uptime_pct = b.uptime_pct

/-! ### Helper lemmas -/

lemma sorted_getD_zero_le (l : List ℚ) (hs : l.Sorted (fun a b => a ≤ b)) :
    ∀ x ∈ l, l.getD 0 0 ≤ x := by
  cases l with
  | nil => intro x hx; cases hx
  | cons a t =>
    intro x hx
    rcases List.mem_cons.1 hx with rfl | hx
    · simp
    · simpa using (List.sorted_cons.1 hs).1 x hx

lemma sorted_le_getD_last (l : List ℚ) (hs : l.Sorted (fun a b => a ≤ b)) :
    ∀ x ∈ l, x ≤ l.getD (l.length - 1) 0 := by
  induction l with
  | nil => intro x hx; cases hx
  | cons a t ih =>
    intro x hx
    rcases List.sorted_cons.1 hs with ⟨ha, ht⟩
    cases t with
    | nil => simp at hx; simp [hx]
    | cons b u =>
      have hlast : (a :: b :: u).getD ((a :: b :: u).length - 1) 0 =
          (b :: u).getD ((b :: u).length - 1) 0 := by
        simp [List.getD]
      rw [hlast]
      rcases List.mem_cons.1 hx with rfl | hx
      · have hmem : (b :: u).getD ((b :: u).length - 1) 0 ∈ (b :: u) := by
          have hlt : (b :: u).length - 1 < (b :: u).length := by simp
          rw [List.getD_eq_getElem _ _ hlt]
          exact List.getElem_mem hlt
        exact ha _ hmem
      · exact ih ht x hx

lemma getD_zero_mem (l : List ℚ) (h : l ≠ []) : l.getD 0 0 ∈ l := by
  cases l with
  | nil => simp at h
  | cons a t => simp [List.getD]

lemma getD_last_mem (l : List ℚ) (h : l ≠ []) : l.getD (l.length - 1) 0 ∈ l := by
  have hlt : l.length - 1 < l.length := by
    cases l with
    | nil => simp at h
    | cons a t => simp
  rw [List.getD_eq_getElem _ _ hlt]
  exact List.getElem_mem hlt

lemma getAll_length (f : TelemetryRecord → Option ℚ) :
    ∀ (l : List TelemetryRecord) (xs : List ℚ), getAll f l = some xs → xs.length = l.length := by
  intro l
  induction l with
  | nil => intro xs h; simp [getAll] at h; simp [← h]
  | cons r rs ih =>
    intro xs h
    simp only [getAll] at h
    cases hf : f r with
    | none => rw [hf] at h; cases h
    | some x =>
      rw [hf] at h
      cases hrec : getAll f rs with
      | none => rw [hrec] at h; cases h
      | some ys =>
        rw [hrec] at h
        cases h
        simp [ih ys hrec]

lemma getAll_none_of_mem (f : TelemetryRecord → Option ℚ) :
    ∀ (l : List TelemetryRecord) (r : TelemetryRecord), r ∈ l → f r = none →
      getAll f l = none := by
  intro l
  induction l with
  | nil => intro r h; cases h
  | cons a rs ih =>
    intro r hmem hf
    rcases List.mem_cons.1 hmem with rfl | hmem
    · simp [getAll, hf]
    · simp only [getAll, ih r hmem hf]
      cases f a <;> rfl

lemma getAll_isSome (f : TelemetryRecord → Option ℚ) :
    ∀ (l : List TelemetryRecord), (∀ r ∈ l, (f r).isSome) → ∃ xs, getAll f l = some xs := by
  intro l
  induction l with
  | nil => intro _; exact ⟨[], rfl⟩
  | cons a rs ih =>
    intro h
    have ha := h a (by simp)
    rcases Option.isSome_iff_exists.1 ha with ⟨x, hx⟩
    rcases ih (fun r hr => h r (by simp [hr])) with ⟨xs, hxs⟩
    exact ⟨x :: xs, by simp [getAll, hx, hxs]⟩

lemma roundHalfEven_le (y : ℚ) : (roundHalfEven y : ℚ) ≤ y + 1/2 := by
  have h1 := Int.floor_le y
  have h2 := Int.lt_floor_add_one y
  unfold roundHalfEven
  split_ifs <;> push_cast <;> linarith

lemma le_roundHalfEven (y : ℚ) : y - 1/2 ≤ (roundHalfEven y : ℚ) := by
  have h1 := Int.floor_le y
  have h2 := Int.lt_floor_add_one y
  unfold roundHalfEven
  split_ifs <;> push_cast <;> linarith

lemma round3_le (x : ℚ) : round3 x ≤ x + 1/2000 := by
  unfold round3
  have h := roundHalfEven_le (x * 1000)
  rw [div_le_iff₀ (by norm_num : (0:ℚ) < 1000)]
  linarith

lemma le_round3 (x : ℚ) : x - 1/2000 ≤ round3 x := by
  unfold round3
  have h := le_roundHalfEven (x * 1000)
  rw [le_div_iff₀ (by norm_num : (0:ℚ) < 1000)]
  linarith

lemma sum_le_length_mul (l : List ℚ) (hi : ℚ) (h : ∀ x ∈ l, x ≤ hi) :
    l.sum ≤ (l.length : ℚ) * hi := by
  induction l with
  | nil => simp
  | cons a t ih =>
    have ha := h a (by simp)
    have ht := ih (fun x hx => h x (by simp [hx]))
    simp only [List.sum_cons, List.length_cons]
    push_cast
    linarith

lemma length_mul_le_sum (l : List ℚ) (lo : ℚ) (h : ∀ x ∈ l, lo ≤ x) :
    (l.length : ℚ) * lo ≤ l.sum := by
  induction l with
  | nil => simp
  | cons a t ih =>
    have ha := h a (by simp)
    have ht := ih (fun x hx => h x (by simp [hx]))
    simp only [List.sum_cons, List.length_cons]
    push_cast
    linarith

lemma mean_bounds (l : List ℚ) (hne : l ≠ []) (lo hi : ℚ)
    (hlo : ∀ x ∈ l, lo ≤ x) (hhi : ∀ x ∈ l, x ≤ hi) :
    lo ≤ l.sum / (l.length : ℚ) ∧ l.sum / (l.length : ℚ) ≤ hi := by
  have hpos : (0:ℚ) < (l.length : ℚ) := by
    have := List.length_pos.2 hne
    exact_mod_cast this
  constructor
  · rw [le_div_iff₀ hpos]
    have := length_mul_le_sum l lo hlo
    linarith [this]
  · rw [div_le_iff₀ hpos]
    have := sum_le_length_mul l hi hhi
    linarith [this]

lemma mem_dictInsert (m : List (String × RegionSummary)) (k : String) (v : RegionSummary)
    (p : String × RegionSummary) (h : p ∈ dictInsert m k v) : p ∈ m ∨ p = (k, v) := by
  unfold dictInsert at h
  split_ifs at h with hc
  · rcases List.mem_map.1 h with ⟨q, hq, hq2⟩
    by_cases hk : q.1 == k
    · right; rw [if_pos hk] at hq2; exact hq2.symm
    · left; rw [if_neg hk] at hq2; exact hq2 ▸ hq
  · rcases List.mem_append.1 h with h1 | h1
    · exact Or.inl h1
    · right; simpa using h1

lemma exists_mem_dictInsert (m : List (String × RegionSummary)) (k : String) (v : RegionSummary)
    (r : String) : (∃ w, (r, w) ∈ dictInsert m k v) ↔ (r = k ∨ ∃ w, (r, w) ∈ m) := by
  unfold dictInsert
  split_ifs with hc
  · constructor
    · rintro ⟨w, hw⟩
      rcases List.mem_map.1 hw with ⟨q, hq, hq2⟩
      by_cases hk : q.1 == k
      · have h1 : (k, v) = (r, w) := by rw [if_pos hk] at hq2; exact hq2
        injection h1 with e1 e2
        exact Or.inl e1.symm
      · right
        rw [if_neg hk] at hq2
        exact ⟨w, hq2 ▸ hq⟩
    · rintro (rfl | ⟨w, hw⟩)
      · rcases List.any_eq_true.1 hc with ⟨q, hq, hqk⟩
        refine ⟨v, List.mem_map.2 ⟨q, hq, ?_⟩⟩
        rw [if_pos hqk]
      · by_cases hk : (r, w).1 == k
        · refine ⟨v, List.mem_map.2 ⟨(r, w), hw, ?_⟩⟩
          have : r = k := by simpa using hk
          rw [if_pos hk, this]
        · exact ⟨w, List.mem_map.2 ⟨(r, w), hw, by rw [if_neg hk]⟩⟩
  · constructor
    · rintro ⟨w, hw⟩
      rcases List.mem_append.1 hw with h1 | h1
      · exact Or.inr ⟨w, h1⟩
      · exact Or.inl (by simpa using h1 : r = k ∧ w = v).1
    · rintro (rfl | ⟨w, hw⟩)
      · exact ⟨v, List.mem_append.2 (Or.inr (by simp))⟩
      · exact ⟨w, List.mem_append.2 (Or.inl hw)⟩

lemma summaryFor_inv (tel : List TelemetryRecord) (t : ℚ) (region : String)
    (s : RegionSummary) (h : summaryFor tel t region = some s) :
    ∃ latencies uptimes p95,
      getAll TelemetryRecord.latency_ms (regionData tel region) = some latencies ∧
      getAll TelemetryRecord.uptime_pct (regionData tel region) = some uptimes ∧
      percentile latencies (19/20) = some p95 ∧
      latencies.length = (regionData tel region).length ∧
      uptimes.length = (regionData tel region).length ∧
      s = { avg_latency := some (round3 (latencies.sum / (latencies.length : ℚ))),
            p95_latency := some (round3 p95),
            avg_uptime := some (round3 (uptimes.sum / (uptimes.length : ℚ))),
            breaches := (latencies.filter (fun l => t < l)).length,
            samples := (regionData tel region).length } := by
  unfold summaryFor at h
  dsimp only at h
  cases hl : getAll TelemetryRecord.latency_ms (regionData tel region) with
  | none => rw [hl] at h; cases h
  | some latencies =>
    cases hu : getAll TelemetryRecord.uptime_pct (regionData tel region) with
    | none => rw [hl, hu] at h; cases h
    | some uptimes =>
      rw [hl, hu] at h
      dsimp only at h
      cases hp : percentile latencies (19/20) with
      | none => rw [hp] at h; cases h
      | some p95 =>
        rw [hp] at h
        simp only [Option.some.injEq] at h
        exact ⟨latencies, uptimes, p95, rfl, rfl, hp,
          getAll_length _ _ _ hl, getAll_length _ _ _ hu, h.symm⟩

lemma check_loop_mem (tel : List TelemetryRecord) (t : ℚ) :
    ∀ (regions : List String) (acc m : List (String × RegionSummary)),
      check_loop tel t regions acc = some m → ∀ p ∈ m,
        p ∈ acc ∨ (summaryFor tel t p.1 = some p.2 ∧ regionData tel p.1 ≠ []) := by
  intro regions
  induction regions with
  | nil =>
    intro acc m h p hp
    simp only [check_loop, Option.some.injEq] at h
    exact Or.inl (h ▸ hp)
  | cons region rest ih =>
    intro acc m h p hp
    simp only [check_loop] at h
    split_ifs at h with he
    · exact ih acc m h p hp
    · cases hs : summaryFor tel t region with
      | none => rw [hs] at h; cases h
      | some s =>
        rw [hs] at h
        rcases ih _ m h p hp with hacc | hgood
        · rcases mem_dictInsert _ _ _ _ hacc with hacc2 | rfl
          · exact Or.inl hacc2
          · refine Or.inr ⟨hs, ?_⟩
            simpa [List.isEmpty_iff] using he
        · exact Or.inr hgood

lemma check_loop_keys (tel : List TelemetryRecord) (t : ℚ) :
    ∀ (regions : List String) (acc m : List (String × RegionSummary)),
      check_loop tel t regions acc = some m → ∀ r : String,
        ((∃ v, (r, v) ∈ m) ↔ ((∃ v, (r, v) ∈ acc) ∨ (r ∈ regions ∧ regionData tel r ≠ []))) := by
  intro regions
  induction regions with
  | nil =>
    intro acc m h r
    simp only [check_loop, Option.some.injEq] at h
    subst h
    simp
  | cons region rest ih =>
    intro acc m h r
    simp only [check_loop] at h
    split_ifs at h with he
    · rw [ih acc m h r]
      constructor
      · rintro (hacc | ⟨hmem, hne⟩)
        · exact Or.inl hacc
        · exact Or.inr ⟨List.mem_cons.2 (Or.inr hmem), hne⟩
      · rintro (hacc | ⟨hmem, hne⟩)
        · exact Or.inl hacc
        · rcases List.mem_cons.1 hmem with rfl | hmem2
          · exact absurd (by simpa [List.isEmpty_iff] using he) hne
          · exact Or.inr ⟨hmem2, hne⟩
    · cases hs : summaryFor tel t region with
      | none => rw [hs] at h; cases h
      | some s =>
        rw [hs] at h
        rw [ih _ m h r, exists_mem_dictInsert]
        have hne : regionData tel region ≠ [] := by
          simpa [List.isEmpty_iff] using he
        constructor
        · rintro ((rfl | hacc) | ⟨hmem, hne2⟩)
          · exact Or.inr ⟨by simp, hne⟩
          · exact Or.inl hacc
          · exact Or.inr ⟨List.mem_cons.2 (Or.inr hmem), hne2⟩
        · rintro (hacc | ⟨hmem, hne2⟩)
          · exact Or.inl (Or.inr hacc)
          · rcases List.mem_cons.1 hmem with rfl | hmem2
            · exact Or.inl (Or.inl rfl)
            · exact Or.inr ⟨hmem2, hne2⟩

lemma summaryFor_some (tel : List TelemetryRecord) (t : ℚ) (region : String)
    (hne : regionData tel region ≠ [])
    (hfield : ∀ rec ∈ regionData tel region,
      (rec.latency_ms).isSome ∧ (rec.uptime_pct).isSome) :
    ∃ s, summaryFor tel t region = some s := by
  rcases getAll_isSome TelemetryRecord.latency_ms _ (fun r hr => (hfield r hr).1) with ⟨lats, hl⟩
  rcases getAll_isSome TelemetryRecord.uptime_pct _ (fun r hr => (hfield r hr).2) with ⟨ups, hu⟩
  have hlne : lats ≠ [] := by
    have hlen := getAll_length _ _ _ hl
    intro h0
    rw [h0] at hlen
    exact hne (List.length_eq_zero.1 hlen.symm)
  have hlE : lats.isEmpty = false := by simpa [List.isEmpty_iff] using hlne
  unfold summaryFor
  dsimp only
  rw [hl, hu]
  dsimp only
  unfold percentile
  rw [hlE]
  exact ⟨_, rfl⟩

lemma summaryFor_none (tel : List TelemetryRecord) (t : ℚ) (region : String)
    (rec : TelemetryRecord) (hrec : rec ∈ regionData tel region)
    (hmiss : rec.latency_ms = none ∨ rec.uptime_pct = none) :
    summaryFor tel t region = none := by
  unfold summaryFor
  dsimp only
  rcases hmiss with hm | hm
  · rw [getAll_none_of_mem _ _ _ hrec hm]
  · rw [getAll_none_of_mem _ _ _ hrec hm]
    cases getAll TelemetryRecord.latency_ms (regionData tel region) <;> rfl

lemma check_loop_none (tel : List TelemetryRecord) (t : ℚ) :
    ∀ (regions : List String) (acc : List (String × RegionSummary)) (r : String),
      r ∈ regions →
      (∃ rec ∈ regionData tel r, rec.latency_ms = none ∨ rec.uptime_pct = none) →
      check_loop tel t regions acc = none := by
  intro regions
  induction regions with
  | nil => intro acc r h; cases h
  | cons region rest ih =>
    intro acc r hmem hbad
    rcases hbad with ⟨rec, hrec, hmiss⟩
    simp only [check_loop]
    rcases List.mem_cons.1 hmem with rfl | hmem2
    · have hne : (regionData tel r).isEmpty = false := by
        have : regionData tel r ≠ [] := by
          intro h0; rw [h0] at hrec; cases hrec
        simpa [List.isEmpty_iff] using this
      rw [hne]
      simp only [Bool.false_eq_true, if_false]
      rw [summaryFor_none tel t r rec hrec hmiss]
    · split_ifs with he
      · exact ih acc r hmem2 ⟨rec, hrec, hmiss⟩
      · cases hs : summaryFor tel t region with
        | none => rfl
        | some s => exact ih _ r hmem2 ⟨rec, hrec, hmiss⟩

lemma check_loop_total (tel : List TelemetryRecord) (t : ℚ) :
    ∀ (regions : List String) (acc : List (String × RegionSummary)),
      (∀ r ∈ regions, ∀ rec ∈ regionData tel r,
        (rec.latency_ms).isSome ∧ (rec.uptime_pct).isSome) →
      ∃ m, check_loop tel t regions acc = some m := by
  intro regions
  induction regions with
  | nil => intro acc _; exact ⟨acc, rfl⟩
  | cons region rest ih =>
    intro acc h
    simp only [check_loop]
    split_ifs with he
    · exact ih acc (fun r hr => h r (by simp [hr]))
    · have hne : regionData tel region ≠ [] := by simpa [List.isEmpty_iff] using he
      rcases summaryFor_some tel t region hne (h region (by simp)) with ⟨s, hs⟩
      rw [hs]
      exact ih _ (fun r hr => h r (by simp [hr]))

/-! ### Claim theorems and supporting lemmas -/

/-- Claim C5 (confirmed): `percentile` returns `none` on the empty list; on a
non-empty list it returns the element of the ascending sort at index
`clamp(ceil(p * n) - 1, 0, n - 1)` (nearest-rank), so `p = 0` yields the
minimum and `p = 1` the maximum. -/
theorem percentile_nearest_rank (values : List ℚ) (p : ℚ) :
    (values = [] → percentile values p = none) ∧
    (values ≠ [] →
      percentile values p =
        some ((List.insertionSort (fun a b => a ≤ b) values).getD
          (min (max (⌈p * (values.length : ℚ)⌉ - 1) 0) ((values.length : ℤ) - 1)).toNat 0) ∧
      (∃ m, percentile values 0 = some m ∧ m ∈ values ∧ ∀ x ∈ values, m ≤ x) ∧
      (∃ M, percentile values 1 = some M ∧ M ∈ values ∧ ∀ x ∈ values, x ≤ M)) := by
  constructor
  · rintro rfl; rfl
  · intro hne
    have hlen : 1 ≤ values.length := List.length_pos.2 hne
    have hlenZ : (1 : ℤ) ≤ (values.length : ℤ) := by exact_mod_cast hlen
    have hiE : values.isEmpty = false := by
      simpa [List.isEmpty_iff] using hne
    have hperm := List.perm_insertionSort (fun a b => a ≤ b) values
    have hsort := List.sorted_insertionSort (fun a b => a ≤ b) values
    have hsne : List.insertionSort (fun a b => a ≤ b) values ≠ [] := by
      intro h0
      rw [h0] at hperm
      exact hne (hperm.symm.eq_nil ▸ rfl)
    refine ⟨?_, ?_, ?_⟩
    · simp only [percentile, hiE, Bool.false_eq_true, if_false]
      congr 2
      omega
    · refine ⟨(List.insertionSort (fun a b => a ≤ b) values).getD 0 0, ?_, ?_, ?_⟩
      · simp only [percentile, hiE, Bool.false_eq_true, if_false]
        congr 2
        have : ⌈(0:ℚ) * (values.length : ℚ)⌉ = 0 := by simp
        rw [this]
        omega
      · exact hperm.mem_iff.1 (getD_zero_mem _ hsne)
      · intro x hx
        exact sorted_getD_zero_le _ hsort x (hperm.mem_iff.2 hx)
    · refine ⟨(List.insertionSort (fun a b => a ≤ b) values).getD
        ((List.insertionSort (fun a b => a ≤ b) values).length - 1) 0, ?_, ?_, ?_⟩
      · simp only [percentile, hiE, Bool.false_eq_true, if_false]
        congr 2
        have h1 : ⌈(1:ℚ) * (values.length : ℚ)⌉ = (values.length : ℤ) := by
          simp
        rw [h1, hperm.length_eq]
        omega
      · exact hperm.mem_iff.1 (getD_last_mem _ hsne)
      · intro x hx
        exact sorted_le_getD_last _ hsort x (hperm.mem_iff.2 hx)

/-- Claim C7 (confirmed): `percentile` is invariant under permutation of its
input. -/
theorem percentile_perm_invariant (p : ℚ) (l1 l2 : List ℚ) (h : l1.Perm l2) :
    percentile l1 p = percentile l2 p := by
  have hlen : l1.length = l2.length := h.length_eq
  have hsorteq : List.insertionSort (fun a b => a ≤ b) l1 =
      List.insertionSort (fun a b => a ≤ b) l2 :=
    List.eq_of_perm_of_sorted
      (((List.perm_insertionSort _ l1).trans h).trans (List.perm_insertionSort _ l2).symm)
      (List.sorted_insertionSort _ l1) (List.sorted_insertionSort _ l2)
  have hemp : l1.isEmpty = l2.isEmpty := by
    cases l1 <;> cases l2 <;> simp_all [List.isEmpty]
  simp only [percentile, hemp, hsorteq, hlen]

lemma regionData_congr (tel1 tel2 : List TelemetryRecord)
    (h : List.Forall₂ publicEq tel1 tel2) (r : String) :
    List.Forall₂ publicEq (regionData tel1 r) (regionData tel2 r) := by
  induction h with
  | nil => exact List.Forall₂.nil
  | cons hab hrest ih =>
    rename_i a b l1 l2
    by_cases hr : a.region == r
    · have hr2 : b.region == r := by
        rw [← hab.1]; exact hr
      simpa [regionData, List.filter, hr, hr2] using List.Forall₂.cons hab ih
    · have hr2 : ¬(b.region == r) := by
        rw [← hab.1]; exact hr
      simpa [regionData, List.filter, hr, hr2] using ih

lemma getAll_congr (f : TelemetryRecord → Option ℚ)
    (hf : ∀ a b, publicEq a b → f a = f b) :
    ∀ (l1 l2 : List TelemetryRecord), List.Forall₂ publicEq l1 l2 →
      getAll f l1 = getAll f l2 := by
  intro l1 l2 h
  induction h with
  | nil => rfl
  | cons hab hrest ih =>
    rename_i a b t1 t2
    simp only [getAll, hf a b hab, ih]

lemma summaryFor_congr (tel1 tel2 : List TelemetryRecord)
    (h : List.Forall₂ publicEq tel1 tel2) (t : ℚ) (region : String) :
    summaryFor tel1 t region = summaryFor tel2 t region := by
  have hrd := regionData_congr tel1 tel2 h region
  have hlat := getAll_congr TelemetryRecord.latency_ms (fun a b hab => hab.2.1) _ _ hrd
  have hupt := getAll_congr TelemetryRecord.uptime_pct (fun a b hab => hab.2.2) _ _ hrd
  have hlen := hrd.length_eq
  unfold summaryFor
  dsimp only
  rw [hlat, hupt, hlen]

lemma regionData_isEmpty_congr (tel1 tel2 : List TelemetryRecord)
    (h : List.Forall₂ publicEq tel1 tel2) (r : String) :
    (regionData tel1 r).isEmpty = (regionData tel2 r).isEmpty := by
  have hlen := (regionData_congr tel1 tel2 h r).length_eq
  cases h1 : regionData tel1 r <;> cases h2 : regionData tel2 r <;>
    rw [h1, h2] at hlen <;> simp_all

lemma check_loop_congr (tel1 tel2 : List TelemetryRecord)
    (h : List.Forall₂ publicEq tel1 tel2) (t : ℚ) :
    ∀ (regions : List String) (acc : List (String × RegionSummary)),
      check_loop tel1 t regions acc = check_loop tel2 t regions acc := by
  intro regions
  induction regions with
  | nil => intro acc; rfl
  | cons region rest ih =>
    intro acc
    simp only [check_loop, regionData_isEmpty_congr tel1 tel2 h region,
      summaryFor_congr tel1 tel2 h t region]
    split_ifs with he
    · exact ih acc
    · cases summaryFor tel2 t region with
      | none => rfl
      | some s => exact ih _

/-- Claim C9 (confirmed): the aggregation result does not depend on the
`service` or `timestamp` fields: two telemetry collections that agree
record-by-record on `region`, `latency_ms` and `uptime_pct` produce identical
results for every request. -/
theorem check_latency_ignores_service_timestamp (tel1 tel2 : List TelemetryRecord)
    (h : List.Forall₂ publicEq tel1 tel2) (q : Query) :
    check_latency tel1 q = check_latency tel2 q := by
  unfold check_latency
  exact check_loop_congr tel1 tel2 h q.threshold_ms q.regions []

/-- Claim C1 (amended): a requested region appears as a key of the result
exactly when at least one telemetry record matches it (by exact string
equality); a requested region with zero matching records is dropped from
the result, not reported with `samples = 0`. -/
theorem check_latency_keys_iff_matched (tel : List TelemetryRecord) (q : Query)
    (m : List (String × RegionSummary)) (h : check_latency tel q = some m) (r : String) :
    (∃ v, (r, v) ∈ m) ↔ (r ∈ q.regions ∧ regionData tel r ≠ []) := by
  have := check_loop_keys tel q.threshold_ms q.regions [] m h r
  simpa using this

/-- Claim C3 (amended): `check_latency` performs no validation of
`query.regions`: an empty region list does not fail, it yields a successful
empty mapping; and whenever every matched record carries both numeric fields
the call succeeds, so emptiness is never an error condition. -/
theorem check_latency_no_empty_validation (tel : List TelemetryRecord) (t : ℚ) (q : Query)
    (hfields : ∀ r ∈ q.regions, ∀ rec ∈ regionData tel r,
      (rec.latency_ms).isSome ∧ (rec.uptime_pct).isSome) :
    check_latency tel { regions := [], threshold_ms := t } = some [] ∧
    ∃ m, check_latency tel q = some m := by
  exact ⟨rfl, check_loop_total tel q.threshold_ms q.regions [] hfields⟩

/-- Claim C4 (amended): a matched record lacking `latency_ms` or
`uptime_pct` makes the whole aggregation raise `KeyError` (modelled by
`none`); such records are not silently excluded from the statistics. -/
theorem check_latency_missing_field_raises (tel : List TelemetryRecord) (q : Query)
    (r : String) (hr : r ∈ q.regions) (rec : TelemetryRecord)
    (hrec : rec ∈ regionData tel r)
    (hmiss : rec.latency_ms = none ∨ rec.uptime_pct = none) :
    check_latency tel q = none := by
  exact check_loop_none tel q.threshold_ms q.regions [] r hr ⟨rec, hrec, hmiss⟩

/-- Claim C10 (confirmed): every region summary present in a successful
result has `samples ≥ 1` and all three statistics (`avg_latency`,
`p95_latency`, `avg_uptime`) present. -/
theorem present_summary_has_samples_and_stats (tel : List TelemetryRecord) (q : Query)
    (m : List (String × RegionSummary)) (r : String) (v : RegionSummary)
    (h : check_latency tel q = some m) (hmem : (r, v) ∈ m) :
    1 ≤ v.samples ∧ v.avg_latency.isSome ∧ v.p95_latency.isSome ∧ v.avg_uptime.isSome := by
  rcases check_loop_mem tel q.threshold_ms q.regions [] m h (r, v) hmem with habs | ⟨hs, hne⟩
  · cases habs
  · rcases summaryFor_inv tel q.threshold_ms r v hs with
      ⟨lats, ups, p95, hl, hu, hp, hllen, hulen, hv⟩
    subst hv
    refine ⟨?_, rfl, rfl, rfl⟩
    have : regionData tel r ≠ [] := hne
    have hpos : 0 < (regionData tel r).length := List.length_pos.2 this
    simpa using hpos

lemma exists_min_max (l : List ℚ) (hne : l ≠ []) :
    ∃ lo ∈ l, ∃ hi ∈ l, ∀ x ∈ l, lo ≤ x ∧ x ≤ hi := by
  have hperm := List.perm_insertionSort (fun a b => a ≤ b) l
  have hsort := List.sorted_insertionSort (fun a b => a ≤ b) l
  have hsne : List.insertionSort (fun a b => a ≤ b) l ≠ [] := by
    intro h0
    rw [h0] at hperm
    exact hne (hperm.symm.eq_nil ▸ rfl)
  refine ⟨(List.insertionSort (fun a b => a ≤ b) l).getD 0 0,
    hperm.mem_iff.1 (getD_zero_mem _ hsne),
    (List.insertionSort (fun a b => a ≤ b) l).getD
      ((List.insertionSort (fun a b => a ≤ b) l).length - 1) 0,
    hperm.mem_iff.1 (getD_last_mem _ hsne), ?_⟩
  intro x hx
  exact ⟨sorted_getD_zero_le _ hsort x (hperm.mem_iff.2 hx),
    sorted_le_getD_last _ hsort x (hperm.mem_iff.2 hx)⟩

lemma percentile_some_ne_nil (l : List ℚ) (p : ℚ) (v : ℚ)
    (h : percentile l p = some v) : l ≠ [] := by
  intro h0
  subst h0
  cases h

/-- Claim C2 (amended): region matching is case-sensitive exact string
equality: a record is selected for requested region `R` iff its `region`
field equals `R` exactly (no lower-casing). -/
theorem regionData_mem_iff_exact (tel : List TelemetryRecord) (R : String)
    (rec : TelemetryRecord) :
    rec ∈ regionData tel R ↔ (rec ∈ tel ∧ rec.region = R) := by
  simp [regionData, List.mem_filter]

/-- Claim C8 (amended): the averages before rounding lie within
`[min, max]` of the extracted values; the returned (rounded to 3 decimals)
averages lie within `[min - 0.0005, max + 0.0005]` (rounding can push them
outside the exact interval, see the counterexample). -/
theorem avg_within_minmax_up_to_rounding (tel : List TelemetryRecord) (q : Query)
    (m : List (String × RegionSummary)) (r : String) (s : RegionSummary)
    (h : check_latency tel q = some m) (hmem : (r, s) ∈ m)
    (lats ups : List ℚ)
    (hl : getAll TelemetryRecord.latency_ms (regionData tel r) = some lats)
    (hu : getAll TelemetryRecord.uptime_pct (regionData tel r) = some ups)
    (a u : ℚ) (ha : s.avg_latency = some a) (hau : s.avg_uptime = some u) :
    (a = round3 (lats.sum / (lats.length : ℚ)) ∧
      ∃ lo ∈ lats, ∃ hi ∈ lats, (∀ x ∈ lats, lo ≤ x ∧ x ≤ hi) ∧
        lo ≤ lats.sum / (lats.length : ℚ) ∧ lats.sum / (lats.length : ℚ) ≤ hi ∧
        lo - 1/2000 ≤ a ∧ a ≤ hi + 1/2000) ∧
    (u = round3 (ups.sum / (ups.length : ℚ)) ∧
      ∃ lo ∈ ups, ∃ hi ∈ ups, (∀ x ∈ ups, lo ≤ x ∧ x ≤ hi) ∧
        lo ≤ ups.sum / (ups.length : ℚ) ∧ ups.sum / (ups.length : ℚ) ≤ hi ∧
        lo - 1/2000 ≤ u ∧ u ≤ hi + 1/2000) := by
  rcases check_loop_mem tel q.threshold_ms q.regions [] m h (r, s) hmem with habs | ⟨hs, hne⟩
  · cases habs
  rcases summaryFor_inv tel q.threshold_ms r s hs with
    ⟨lats2, ups2, p95, hl2, hu2, hp, hllen, hulen, hv⟩
  have hlats : lats = lats2 := by
    rw [hl] at hl2; exact Option.some.injEq _ _ ▸ hl2
  have hups : ups = ups2 := by
    rw [hu] at hu2; exact Option.some.injEq _ _ ▸ hu2
  subst hlats
  subst hups
  have hlne : lats ≠ [] := percentile_some_ne_nil lats (19/20) p95 hp
  have hune : ups ≠ [] := by
    intro h0
    have := hulen
    rw [h0] at this
    simp at this
    exact hne (List.length_eq_zero.1 this.symm)
  have haval : a = round3 (lats.sum / (lats.length : ℚ)) := by
    rw [hv] at ha
    simpa using ha.symm
  have huval : u = round3 (ups.sum / (ups.length : ℚ)) := by
    rw [hv] at hau
    simpa using hau.symm
  constructor
  · refine ⟨haval, ?_⟩
    rcases exists_min_max lats hlne with ⟨lo, hlo, hi, hhi, hbound⟩
    have hm := mean_bounds lats hlne lo hi (fun x hx => (hbound x hx).1)
      (fun x hx => (hbound x hx).2)
    refine ⟨lo, hlo, hi, hhi, hbound, hm.1, hm.2, ?_, ?_⟩
    · have := le_round3 (lats.sum / (lats.length : ℚ))
      rw [← haval] at this
      linarith [hm.1]
    · have := round3_le (lats.sum / (lats.length : ℚ))
      rw [← haval] at this
      linarith [hm.2]
  · refine ⟨huval, ?_⟩
    rcases exists_min_max ups hune with ⟨lo, hlo, hi, hhi, hbound⟩
    have hm := mean_bounds ups hune lo hi (fun x hx => (hbound x hx).1)
      (fun x hx => (hbound x hx).2)
    refine ⟨lo, hlo, hi, hhi, hbound, hm.1, hm.2, ?_, ?_⟩
    · have := le_round3 (ups.sum / (ups.length : ℚ))
      rw [← huval] at this
      linarith [hm.1]
    · have := round3_le (ups.sum / (ups.length : ℚ))
      rw [← huval] at this
      linarith [hm.2]

lemma roundHalfEven_intCast (z : ℤ) : roundHalfEven (z : ℚ) = z := by
  unfold roundHalfEven
  rw [Int.floor_intCast]
  norm_num

lemma round3_intCast (z : ℤ) : round3 (z : ℚ) = (z : ℚ) := by
  unfold round3
  have h : (z : ℚ) * 1000 = ((z * 1000 : ℤ) : ℚ) := by push_cast; ring
  rw [h, roundHalfEven_intCast]
  push_cast
  field_simp

/-- Claim C6 (confirmed): concrete scenario: two `apac` records with
latencies 100 and 200, uptimes 99 and 97, threshold 150: the `apac` summary
is `avg_latency = 150`, `p95_latency = 200`, `avg_uptime = 98`,
`breaches = 1`, `samples = 2`. -/
theorem check_latency_concrete_scenario :
    check_latency
      [{ region := "apac", service := "support", latency_ms := some 100,
         uptime_pct := some 99, timestamp := none },
       { region := "apac", service := "payments", latency_ms := some 200,
         uptime_pct := some 97, timestamp := none }]
      { regions := ["apac"], threshold_ms := 150 } =
    some [("apac",
      { avg_latency := some 150, p95_latency := some 200, avg_uptime := some 98,
        breaches := 1, samples := 2 })] := by
  have h95 : percentile [(100:ℚ), 200] (19/20) = some 200 := by
    have hc : (⌈(19:ℚ)/10⌉ : ℤ) = 2 := by norm_num [Int.ceil_eq_iff]
    simp [percentile, List.insertionSort, List.orderedInsert]
    rw [show (19/20 : ℚ) * 2 = 19/10 by norm_num, hc]
    norm_num
  have h150 : round3 (150:ℚ) = 150 := by simpa using round3_intCast 150
  have h200 : round3 (200:ℚ) = 200 := by simpa using round3_intCast 200
  have h98 : round3 (98:ℚ) = 98 := by simpa using round3_intCast 98
  have hsummary : summaryFor
      [{ region := "apac", service := "support", latency_ms := some 100,
         uptime_pct := some 99, timestamp := none },
       { region := "apac", service := "payments", latency_ms := some 200,
         uptime_pct := some 97, timestamp := none }] 150 "apac" =
      some { avg_latency := some 150, p95_latency := some 200, avg_uptime := some 98,
             breaches := 1, samples := 2 } := by
    unfold summaryFor
    dsimp only
    have hrd : regionData
        [{ region := "apac", service := "support", latency_ms := some 100,
           uptime_pct := some 99, timestamp := none },
         { region := "apac", service := "payments", latency_ms := some 200,
           uptime_pct := some 97, timestamp := none }] "apac" =
        [{ region := "apac", service := "support", latency_ms := some 100,
           uptime_pct := some 99, timestamp := none },
         { region := "apac", service := "payments", latency_ms := some 200,
           uptime_pct := some 97, timestamp := none }] := rfl
    rw [hrd]
    rw [show getAll TelemetryRecord.latency_ms
        [{ region := "apac", service := "support", latency_ms := some 100,
           uptime_pct := some 99, timestamp := none },
         { region := "apac", service := "payments", latency_ms := some 200,
           uptime_pct := some 97, timestamp := none }] = some [(100:ℚ), 200] from rfl]
    rw [show getAll TelemetryRecord.uptime_pct
        [{ region := "apac", service := "support", latency_ms := some 100,
           uptime_pct := some 99, timestamp := none },
         { region := "apac", service := "payments", latency_ms := some 200,
           uptime_pct := some 97, timestamp := none }] = some [(99:ℚ), 97] from rfl]
    dsimp only
    rw [h95]
    dsimp only
    have havg : ([(100:ℚ), 200].sum / (([(100:ℚ), 200].length : ℕ) : ℚ)) = 150 := by
      simp
      norm_num
    have hupt : ([(99:ℚ), 97].sum / (([(99:ℚ), 97].length : ℕ) : ℚ)) = 98 := by
      simp
      norm_num
    have hbr : (List.filter (fun l => decide ((150:ℚ) < l)) [(100:ℚ), 200]).length = 1 := by
      simp [List.filter, decide_eq_true_eq]
      norm_num
    rw [havg, hupt, h150, h200, h98, hbr]
    rfl
  unfold check_latency
  simp only [check_loop]
  rw [show (regionData
      [{ region := "apac", service := "support", latency_ms := some 100,
         uptime_pct := some 99, timestamp := none },
       { region := "apac", service := "payments", latency_ms := some 200,
         uptime_pct := some 97, timestamp := none }] "apac").isEmpty = false from rfl]
  simp only [Bool.false_eq_true, if_false]
  rw [hsummary]
  rfl

lemma percentile_single (x : ℚ) : percentile [x] (19/20) = some x := by
  simp [percentile, List.insertionSort, List.orderedInsert]

/-- Concrete evaluation of the pipeline on one record, shared by several
witnesses. -/
lemma check_latency_single_eval :
    check_latency
      [{ region := "apac", service := "support", latency_ms := some 100,
         uptime_pct := some 99, timestamp := none }]
      { regions := ["apac"], threshold_ms := 150 } =
    some [("apac",
      { avg_latency := some 100, p95_latency := some 100, avg_uptime := some 99,
        breaches := 0, samples := 1 })] := by
  have h100 : round3 (100:ℚ) = 100 := by simpa using round3_intCast 100
  have h99 : round3 (99:ℚ) = 99 := by simpa using round3_intCast 99
  have hsummary : summaryFor
      [{ region := "apac", service := "support", latency_ms := some 100,
         uptime_pct := some 99, timestamp := none }] 150 "apac" =
      some { avg_latency := some 100, p95_latency := some 100, avg_uptime := some 99,
             breaches := 0, samples := 1 } := by
    unfold summaryFor
    dsimp only
    have hrd : regionData
        [{ region := "apac", service := "support", latency_ms := some 100,
           uptime_pct := some 99, timestamp := none }] "apac" =
        [{ region := "apac", service := "support", latency_ms := some 100,
           uptime_pct := some 99, timestamp := none }] := rfl
    rw [hrd]
    rw [show getAll TelemetryRecord.latency_ms
        [{ region := "apac", service := "support", latency_ms := some 100,
           uptime_pct := some 99, timestamp := none }] = some [(100:ℚ)] from rfl]
    rw [show getAll TelemetryRecord.uptime_pct
        [{ region := "apac", service := "support", latency_ms := some 100,
           uptime_pct := some 99, timestamp := none }] = some [(99:ℚ)] from rfl]
    dsimp only
    rw [percentile_single 100]
    dsimp only
    have havg : ([(100:ℚ)].sum / (([(100:ℚ)].length : ℕ) : ℚ)) = 100 := by
      simp
    have hupt : ([(99:ℚ)].sum / (([(99:ℚ)].length : ℕ) : ℚ)) = 99 := by
      simp
    have hbr : (List.filter (fun l => decide ((150:ℚ) < l)) [(100:ℚ)]).length = 0 := by
      simp [List.filter, decide_eq_true_eq]
      norm_num
    rw [havg, hupt, h100, h99, hbr]
    rfl
  unfold check_latency
  simp only [check_loop]
  rw [show (regionData
      [{ region := "apac", service := "support", latency_ms := some 100,
         uptime_pct := some 99, timestamp := none }] "apac").isEmpty = false from rfl]
  simp only [Bool.false_eq_true, if_false]
  rw [hsummary]
  rfl

/-- Claim C8 counterexample: a single record with `latency_ms = 0.0004`
gives extracted latency set `{0.0004}`, so `min = max = 0.0004`, but the
returned `avg_latency`, rounded to 3 decimals, is `0.0`, which lies outside
`[min, max]`. -/
theorem rounded_avg_escapes_minmax_cex :
    check_latency
      [{ region := "apac", service := "support", latency_ms := some (1/2500),
         uptime_pct := some 99, timestamp := none }]
      { regions := ["apac"], threshold_ms := 150 } =
    some [("apac",
      { avg_latency := some 0, p95_latency := some 0, avg_uptime := some 99,
        breaches := 0, samples := 1 })] ∧
    ¬ ((1/2500 : ℚ) ≤ 0) := by
  constructor
  · have h99 : round3 (99:ℚ) = 99 := by simpa using round3_intCast 99
    have hsmall : round3 ((1:ℚ)/2500) = 0 := by
      unfold round3
      have harg : (1:ℚ)/2500 * 1000 = 2/5 := by norm_num
      rw [harg]
      have hfl : (⌊(2:ℚ)/5⌋ : ℤ) = 0 := by
        rw [Int.floor_eq_iff]
        norm_num
      unfold roundHalfEven
      rw [hfl]
      norm_num
    have hsummary : summaryFor
        [{ region := "apac", service := "support", latency_ms := some (1/2500),
           uptime_pct := some 99, timestamp := none }] 150 "apac" =
        some { avg_latency := some 0, p95_latency := some 0, avg_uptime := some 99,
               breaches := 0, samples := 1 } := by
      unfold summaryFor
      dsimp only
      have hrd : regionData
          [{ region := "apac", service := "support", latency_ms := some (1/2500),
             uptime_pct := some 99, timestamp := none }] "apac" =
          [{ region := "apac", service := "support", latency_ms := some (1/2500),
             uptime_pct := some 99, timestamp := none }] := rfl
      rw [hrd]
      rw [show getAll TelemetryRecord.latency_ms
          [{ region := "apac", service := "support", latency_ms := some (1/2500),
             uptime_pct := some 99, timestamp := none }] = some [(1:ℚ)/2500] from rfl]
      rw [show getAll TelemetryRecord.uptime_pct
          [{ region := "apac", service := "support", latency_ms := some (1/2500),
             uptime_pct := some 99, timestamp := none }] = some [(99:ℚ)] from rfl]
      dsimp only
      rw [percentile_single (1/2500)]
      dsimp only
      have havg : ([(1:ℚ)/2500].sum / (([(1:ℚ)/2500].length : ℕ) : ℚ)) = 1/2500 := by
        simp
      have hupt : ([(99:ℚ)].sum / (([(99:ℚ)].length : ℕ) : ℚ)) = 99 := by
        simp
      have hbr : (List.filter (fun l => decide ((150:ℚ) < l)) [(1:ℚ)/2500]).length = 0 := by
        simp [List.filter, decide_eq_true_eq]
        norm_num
      rw [havg, hupt, hsmall, h99, hbr]
      rfl
    unfold check_latency
    simp only [check_loop]
    rw [show (regionData
        [{ region := "apac", service := "support", latency_ms := some (1/2500),
           uptime_pct := some 99, timestamp := none }] "apac").isEmpty = false from rfl]
    simp only [Bool.false_eq_true, if_false]
    rw [hsummary]
    rfl
  · norm_num

/-- Claim C1 counterexample: requesting `apac` against telemetry holding only
an `emea` record returns `some []` — the requested region is silently dropped
instead of appearing with `samples = 0`. -/
theorem requested_region_dropped_cex :
    check_latency [{ region := "emea", service := "support", latency_ms := some 100,
                     uptime_pct := some 99, timestamp := none }]
      { regions := ["apac"], threshold_ms := 150 } = some [] ∧
    ¬ ∃ v, ("apac", v) ∈ ([] : List (String × RegionSummary)) := by
  exact ⟨rfl, by simp⟩

/-- Claim C1 witness statement for the amended theorem. -/
theorem check_latency_keys_iff_matched_witness :
    (∃ v, ("apac", v) ∈ ([] : List (String × RegionSummary))) ↔
      ("apac" ∈ ["apac"] ∧ regionData [] "apac" ≠ []) :=
  check_latency_keys_iff_matched [] { regions := ["apac"], threshold_ms := 0 } [] rfl "apac"

/-- Claim C2 counterexample: a record tagged `APAC` and a request for `apac`
have equal lower-casings, yet the record is not selected and the region key
is absent from the result. -/
theorem case_insensitive_match_fails_cex :
    strLower "APAC" = strLower "apac" ∧
    regionData [{ region := "APAC", service := "support", latency_ms := some 100,
                  uptime_pct := some 99, timestamp := none }] "apac" = [] ∧
    check_latency [{ region := "APAC", service := "support", latency_ms := some 100,
                     uptime_pct := some 99, timestamp := none }]
      { regions := ["apac"], threshold_ms := 150 } = some [] := by
  exact ⟨by decide, rfl, rfl⟩

/-- Claim C3 counterexample: an empty `regions` list does not produce any
error — the call succeeds with an empty mapping; and a non-empty region list
can fail (missing field), so emptiness is not the only failure mode either. -/
theorem empty_regions_not_rejected_cex :
    check_latency telemetry { regions := [], threshold_ms := 100 } = some [] ∧
    check_latency [{ region := "apac", service := "support", latency_ms := none,
                     uptime_pct := none, timestamp := none }]
      { regions := ["apac"], threshold_ms := 150 } = none := by
  exact ⟨rfl, rfl⟩

/-- Claim C3 witness statement for the amended theorem. -/
theorem check_latency_no_empty_validation_witness :
    check_latency ([] : List TelemetryRecord) { regions := [], threshold_ms := 5 } = some [] ∧
    ∃ m, check_latency ([] : List TelemetryRecord)
      { regions := ["apac"], threshold_ms := 0 } = some m :=
  check_latency_no_empty_validation [] 5 { regions := ["apac"], threshold_ms := 0 }
    (by simp [regionData])

/-- Claim C4 counterexample: a matched record lacking `latency_ms` makes the
aggregation raise (`none`) instead of being silently excluded. -/
theorem missing_field_not_tolerated_cex :
    check_latency [{ region := "apac", service := "payments", latency_ms := none,
                     uptime_pct := some 99, timestamp := none }]
      { regions := ["apac"], threshold_ms := 150 } = none := rfl

/-- Claim C4 witness statement for the amended theorem (missing
`uptime_pct`). -/
theorem check_latency_missing_field_raises_witness :
    check_latency [{ region := "apac", service := "payments", latency_ms := some 100,
                     uptime_pct := none, timestamp := none }]
      { regions := ["apac"], threshold_ms := 150 } = none :=
  check_latency_missing_field_raises
    [{ region := "apac", service := "payments", latency_ms := some 100,
       uptime_pct := none, timestamp := none }]
    { regions := ["apac"], threshold_ms := 150 } "apac" (by simp)
    { region := "apac", service := "payments", latency_ms := some 100,
      uptime_pct := none, timestamp := none } (by simp [regionData]) (Or.inr rfl)

/-- Claim C7 witness statement. -/
theorem percentile_perm_invariant_witness :
    percentile [(1:ℚ), 2] (1/2) = percentile [(2:ℚ), 1] (1/2) :=
  percentile_perm_invariant (1/2) [1, 2] [2, 1] (List.Perm.swap 2 1 [])

/-- Claim C9 witness statement: two single-record collections differing only
in `service` and `timestamp` give the same result. -/
theorem check_latency_ignores_service_timestamp_witness :
    check_latency [{ region := "apac", service := "support", latency_ms := some 5,
                     uptime_pct := some 6, timestamp := none }]
      { regions := ["apac"], threshold_ms := 3 } =
    check_latency [{ region := "apac", service := "payments", latency_ms := some 5,
                     uptime_pct := some 6, timestamp := some 7 }]
      { regions := ["apac"], threshold_ms := 3 } :=
  check_latency_ignores_service_timestamp _ _
    (List.Forall₂.cons ⟨rfl, rfl, rfl⟩ List.Forall₂.nil)
    { regions := ["apac"], threshold_ms := 3 }

/-- Claim C10 witness statement. -/
theorem present_summary_has_samples_and_stats_witness :
    1 ≤ ({ avg_latency := some 100, p95_latency := some 100, avg_uptime := some 99,
           breaches := 0, samples := 1 } : RegionSummary).samples ∧
    ({ avg_latency := some 100, p95_latency := some 100, avg_uptime := some 99,
       breaches := 0, samples := 1 } : RegionSummary).avg_latency.isSome ∧
    ({ avg_latency := some 100, p95_latency := some 100, avg_uptime := some 99,
       breaches := 0, samples := 1 } : RegionSummary).p95_latency.isSome ∧
    ({ avg_latency := some 100, p95_latency := some 100, avg_uptime := some 99,
       breaches := 0, samples := 1 } : RegionSummary).avg_uptime.isSome :=
  present_summary_has_samples_and_stats
    [{ region := "apac", service := "support", latency_ms := some 100,
       uptime_pct := some 99, timestamp := none }]
    { regions := ["apac"], threshold_ms := 150 }
    [("apac", { avg_latency := some 100, p95_latency := some 100, avg_uptime := some 99,
                breaches := 0, samples := 1 })] "apac"
    { avg_latency := some 100, p95_latency := some 100, avg_uptime := some 99,
      breaches := 0, samples := 1 }
    check_latency_single_eval (by simp)

/-- Claim C8 witness statement for the amended theorem, at a single record
with latency 100 and uptime 99. -/
theorem avg_within_minmax_up_to_rounding_witness :
    ((100:ℚ) = round3 ([(100:ℚ)].sum / (([(100:ℚ)].length : ℕ) : ℚ)) ∧
      ∃ lo ∈ [(100:ℚ)], ∃ hi ∈ [(100:ℚ)], (∀ x ∈ [(100:ℚ)], lo ≤ x ∧ x ≤ hi) ∧
        lo ≤ [(100:ℚ)].sum / (([(100:ℚ)].length : ℕ) : ℚ) ∧
        [(100:ℚ)].sum / (([(100:ℚ)].length : ℕ) : ℚ) ≤ hi ∧
        lo - 1/2000 ≤ (100:ℚ) ∧ (100:ℚ) ≤ hi + 1/2000) ∧
    ((99:ℚ) = round3 ([(99:ℚ)].sum / (([(99:ℚ)].length : ℕ) : ℚ)) ∧
      ∃ lo ∈ [(99:ℚ)], ∃ hi ∈ [(99:ℚ)], (∀ x ∈ [(99:ℚ)], lo ≤ x ∧ x ≤ hi) ∧
        lo ≤ [(99:ℚ)].sum / (([(99:ℚ)].length : ℕ) : ℚ) ∧
        [(99:ℚ)].sum / (([(99:ℚ)].length : ℕ) : ℚ) ≤ hi ∧
        lo - 1/2000 ≤ (99:ℚ) ∧ (99:ℚ) ≤ hi + 1/2000) :=
  avg_within_minmax_up_to_rounding
    [{ region := "apac", service := "support", latency_ms := some 100,
       uptime_pct := some 99, timestamp := none }]
    { regions := ["apac"], threshold_ms := 150 }
    [("apac", { avg_latency := some 100, p95_latency := some 100, avg_uptime := some 99,
                breaches := 0, samples := 1 })] "apac"
    { avg_latency := some 100, p95_latency := some 100, avg_uptime := some 99,
      breaches := 0, samples := 1 }
    check_latency_single_eval (by simp) [100] [99] rfl rfl 100 99 rfl rfl
